import Mathlib

/-!
# Verification of the kubedog tracker sources

A shallow embedding, in Lean 4, of the parts of the kubedog tracker that the
specification's claims are about:

* the log follower's byte-stream framing (`PodTracker.followContainerLogs`,
  `src/pkg/tracker/pod.go`);
* the pod tracker's event loop and container-state handling
  (`PodTracker.Track`, `handlePodState`, `handleContainersState`);
* the `TrackPod` feed-dispatch loop;
* the Deployment controller tracker's event loop
  (`src/pkg/tracker/deployment/tracker.go`);
* the DaemonSet controller tracker's event loop (the `daemonset` package).

Go strings and byte slices are modelled as `List Char`; Go `nil`-able values
as `Option`; channel emissions as output lists produced by each step of the
select loops.  Each loop is embedded as a step function on an explicit state
type together with a run function folding the step over the list of inbound
channel messages.
-/

set_option autoImplicit false

namespace Kubedog

/-! ## Log line framing (`followContainerLogs`) -/

/-- `LogLine` from `pod.go`: a timestamp string and the rest of the line.
Go strings are modelled as `List Char`. -/
structure LogLine where
  timestamp : List Char
  data : List Char
deriving DecidableEq, Repr

/-- Splits a list at the first occurrence of `sep`: returns the part before it
and the part after it, or `none` when `sep` does not occur.  This embeds Go's
`strings.SplitN(line, sep, 2)` (which yields two parts exactly when `sep`
occurs). -/
def breakAt (sep : Char) : List Char → Option (List Char × List Char)
  | [] => none
  | c :: rest =>
    if c = sep then some ([], rest)
    else
      match breakAt sep rest with
      | none => none
      | some (pre, post) => some (c :: pre, post)

/-- The per-line parse of `followContainerLogs`: `strings.SplitN(line, " ", 2)`
produces two parts exactly when the line contains a space; only then a
`LogLine` is appended. -/
def parseLogLine (line : List Char) : Option LogLine :=
  match breakAt ' ' line with
  | some (ts, rest) => some ⟨ts, rest⟩
  | none => none

/-- The inner byte loop of `followContainerLogs` over one read chunk: scans the
bytes, completing a line at each newline (the completed line is parsed and, if
valid, emitted) and appending other bytes to the carried line buffer.  Returns
the lines emitted for this chunk and the new line buffer. -/
def processChunk : List Char → List Char → List LogLine × List Char
  | lineBuf, [] => ([], lineBuf)
  | lineBuf, b :: rest =>
    if b = '\n' then
      let res := processChunk [] rest
      ((parseLogLine lineBuf).toList ++ res.1, res.2)
    else
      processChunk (lineBuf ++ [b]) rest

/-- The read loop of `followContainerLogs`: `reads` is the sequence of byte
chunks successfully returned by `Read` (an entry is the `n` bytes read).  For
every read with `n > 0` the loop processes the bytes and sends one
`ContainerLogChunk` holding the lines completed in that read — even when that
list of lines is empty.  Reads with `n = 0` send nothing. -/
def followReads : List Char → List (List Char) → List (List LogLine)
  | _, [] => []
  | lineBuf, r :: rs =>
    if r.isEmpty then followReads lineBuf rs
    else
      let res := processChunk lineBuf r
      res.1 :: followReads res.2 rs

/-- All log lines emitted by the follower across the whole stream of reads. -/
def emittedLogLines (reads : List (List Char)) : List LogLine :=
  (followReads [] reads).flatten

/-- Modelled from the spec: "lines separated by `\n`" — the byte stream split
into segments at every newline byte.  The last segment is the trailing partial
line (possibly empty). -/
def splitNL (bs : List Char) : List (List Char) :=
  bs.foldr
    (fun c acc =>
      match acc with
      | [] => []
      | cur :: rest => if c = '\n' then [] :: cur :: rest else (c :: cur) :: rest)
    [[]]

/-- Modelled from the spec: "timestamp is up to the first space, payload is the
rest; malformed lines (no space) are discarded". -/
def specParseLine (l : List Char) : Option LogLine :=
  if ' ' ∈ l then some ⟨l.takeWhile (fun c => c ≠ ' '), (l.dropWhile (fun c => c ≠ ' ')).tail⟩
  else none

/-- Modelled from the spec: the lines of a byte stream are the complete
newline-terminated segments, each parsed at its first space. -/
def specLogLines (bs : List Char) : List LogLine :=
  ((splitNL bs).dropLast).filterMap specParseLine

/-! ### Lemmas about `breakAt` -/

theorem breakAt_of_not_mem {sep : Char} : ∀ {l : List Char}, sep ∉ l → breakAt sep l = none := by
  intro l
  induction l with
  | nil => intro _; rfl
  | cons c rest ih =>
    intro h
    have hc : ¬c = sep := fun he => h (he ▸ List.mem_cons_self c rest)
    have hr : sep ∉ rest := fun hm => h (List.mem_cons_of_mem c hm)
    simp [breakAt, hc, ih hr]

theorem breakAt_append {sep : Char} :
    ∀ {pre rest : List Char}, sep ∉ pre → breakAt sep (pre ++ sep :: rest) = some (pre, rest) := by
  intro pre
  induction pre with
  | nil => intro rest _; simp [breakAt]
  | cons c pre' ih =>
    intro rest h
    have hc : ¬c = sep := fun he => h (he ▸ List.mem_cons_self c pre')
    have hp : sep ∉ pre' := fun hm => h (List.mem_cons_of_mem c hm)
    simp [breakAt, hc, ih hp]

theorem breakAt_eq_spec (sep : Char) :
    ∀ l : List Char, breakAt sep l =
      if sep ∈ l then some (l.takeWhile (fun c => c ≠ sep), (l.dropWhile (fun c => c ≠ sep)).tail)
      else none := by
  intro l
  induction l with
  | nil => simp [breakAt]
  | cons c rest ih =>
    by_cases hc : c = sep
    · subst hc
      simp [breakAt, List.takeWhile, List.dropWhile]
    · have : (c ∈ (sep :: rest)) ∨ True := Or.inr trivial
      by_cases hm : sep ∈ rest
      · have hmem : sep ∈ c :: rest := List.mem_cons_of_mem c hm
        simp [breakAt, hc, ih, hm, hmem, List.takeWhile, List.dropWhile,
          show c ≠ sep from hc]
      · have hmem : sep ∉ c :: rest := by
          intro h
          rcases List.mem_cons.mp h with h | h
          · exact hc h.symm
          · exact hm h
        simp [breakAt, hc, ih, hm, hmem]

theorem parseLogLine_eq_spec : ∀ l : List Char, parseLogLine l = specParseLine l := by
  intro l
  rw [parseLogLine, specParseLine, breakAt_eq_spec]
  by_cases hm : ' ' ∈ l <;> simp [hm]

/-! ### Lemmas about `splitNL` -/

theorem splitNL_nil : splitNL [] = [[]] := rfl

theorem splitNL_cons (c : Char) (bs : List Char) :
    splitNL (c :: bs) =
      match splitNL bs with
      | [] => []
      | cur :: rest => if c = '\n' then [] :: cur :: rest else (c :: cur) :: rest := rfl

theorem splitNL_ne_nil : ∀ bs : List Char, splitNL bs ≠ [] := by
  intro bs
  induction bs with
  | nil => simp [splitNL_nil]
  | cons c rest ih =>
    rw [splitNL_cons]
    rcases h : splitNL rest with _ | ⟨cur, r⟩
    · exact absurd h ih
    · by_cases hc : c = '\n' <;> simp [hc]

theorem splitNL_of_not_mem : ∀ {bs : List Char}, '\n' ∉ bs → splitNL bs = [bs] := by
  intro bs
  induction bs with
  | nil => intro _; rfl
  | cons c rest ih =>
    intro h
    have hc : ¬c = '\n' := fun he => h (he ▸ List.mem_cons_self c rest)
    have hr : '\n' ∉ rest := fun hm => h (List.mem_cons_of_mem c hm)
    rw [splitNL_cons, ih hr]
    simp [hc]

theorem splitNL_append {pre rest : List Char} (h : '\n' ∉ pre) :
    splitNL (pre ++ '\n' :: rest) = pre :: splitNL rest := by
  induction pre with
  | nil =>
    rw [List.nil_append, splitNL_cons]
    rcases hs : splitNL rest with _ | ⟨cur, r⟩
    · exact absurd hs (splitNL_ne_nil rest)
    · simp
  | cons c pre' ih =>
    have hc : ¬c = '\n' := fun he => h (he ▸ List.mem_cons_self c pre')
    have hp : '\n' ∉ pre' := fun hm => h (List.mem_cons_of_mem c hm)
    rw [List.cons_append, splitNL_cons, ih hp]
    simp [hc]

/-! ### The stream equation: chunked processing equals whole-stream splitting -/

theorem processChunk_nil (lineBuf : List Char) : processChunk lineBuf [] = ([], lineBuf) := rfl

theorem processChunk_cons_nl (lineBuf rest : List Char) :
    processChunk lineBuf ('\n' :: rest) =
      ((parseLogLine lineBuf).toList ++ (processChunk [] rest).1, (processChunk [] rest).2) := by
  rw [processChunk]
  simp

theorem processChunk_cons_ne (lineBuf : List Char) {b : Char} (rest : List Char) (h : ¬b = '\n') :
    processChunk lineBuf (b :: rest) = processChunk (lineBuf ++ [b]) rest := by
  rw [processChunk]
  simp [h]

theorem processChunk_spec :
    ∀ (bs lineBuf : List Char), '\n' ∉ lineBuf →
      (processChunk lineBuf bs).1 =
        ((splitNL (lineBuf ++ bs)).dropLast).filterMap parseLogLine
      ∧ '\n' ∉ (processChunk lineBuf bs).2 := by
  intro bs
  induction bs with
  | nil =>
    intro lineBuf h
    constructor
    · rw [processChunk_nil, List.append_nil, splitNL_of_not_mem h]
      simp
    · rw [processChunk_nil]
      exact h
  | cons b rest ih =>
    intro lineBuf h
    by_cases hb : b = '\n'
    · subst hb
      have hnil : ('\n' : Char) ∉ ([] : List Char) := by simp
      obtain ⟨ih1, ih2⟩ := ih [] hnil
      have ih1' : (processChunk [] rest).1 =
          List.filterMap parseLogLine (splitNL rest).dropLast := by
        simpa using ih1
      constructor
      · obtain ⟨cur, r, hs⟩ : ∃ cur r, splitNL rest = cur :: r := by
          rcases h' : splitNL rest with _ | ⟨cur, r⟩
          · exact absurd h' (splitNL_ne_nil rest)
          · exact ⟨cur, r, rfl⟩
        rw [processChunk_cons_nl, ih1', splitNL_append h, hs]
        rcases hp : parseLogLine lineBuf with _ | l <;> simp [hp]
      · rw [processChunk_cons_nl]
        exact ih2
    · have hbuf : '\n' ∉ lineBuf ++ [b] := by
        intro hmem
        rcases List.mem_append.mp hmem with hm | hm
        · exact h hm
        · rcases List.mem_singleton.mp hm with he
          exact hb he.symm
      obtain ⟨ih1, ih2⟩ := ih (lineBuf ++ [b]) hbuf
      constructor
      · rw [processChunk_cons_ne lineBuf rest hb, ih1, List.append_cons lineBuf b rest]
      · rw [processChunk_cons_ne lineBuf rest hb]
        exact ih2

theorem processChunk_append :
    ∀ (a : List Char) (lineBuf b : List Char),
      processChunk lineBuf (a ++ b) =
        ((processChunk lineBuf a).1 ++ (processChunk (processChunk lineBuf a).2 b).1,
         (processChunk (processChunk lineBuf a).2 b).2) := by
  intro a
  induction a with
  | nil => intro lineBuf b; simp [processChunk_nil]
  | cons c a' ih =>
    intro lineBuf b
    by_cases hc : c = '\n'
    · subst hc
      rw [List.cons_append, processChunk_cons_nl, processChunk_cons_nl, ih [] b]
      simp [List.append_assoc]
    · rw [List.cons_append, processChunk_cons_ne lineBuf (a' ++ b) hc,
        processChunk_cons_ne lineBuf a' hc]
      exact ih (lineBuf ++ [c]) b

theorem followReads_flatten :
    ∀ (reads : List (List Char)) (lineBuf : List Char),
      (followReads lineBuf reads).flatten = (processChunk lineBuf reads.flatten).1 := by
  intro reads
  induction reads with
  | nil => intro lineBuf; simp [followReads, processChunk_nil]
  | cons r rs ih =>
    intro lineBuf
    by_cases hr : r.isEmpty
    · have : r = [] := List.isEmpty_iff.mp hr
      subst this
      rw [followReads]
      simp [ih]
    · rw [followReads]
      simp only [if_neg hr, List.flatten_cons]
      rw [ih (processChunk lineBuf r).2, processChunk_append r lineBuf rs.flatten]

theorem followReads_length :
    ∀ (reads : List (List Char)) (lineBuf : List Char),
      (followReads lineBuf reads).length = (reads.filter (fun r => !r.isEmpty)).length := by
  intro reads
  induction reads with
  | nil => intro _; rfl
  | cons r rs ih =>
    intro lineBuf
    by_cases hr : r.isEmpty
    · rw [followReads]
      simp [hr, ih]
    · rw [followReads]
      simp only [if_neg hr]
      simp [List.filter, hr, ih]

/-! ### Claim C6 -/

/-- C6: the log follower's byte-stream parsing, viewed as a pure function from
the bytes read to the emitted `LogLine`s, splits the stream into lines at each
newline byte with the partial-line buffer carried across reads, splits each
complete line once at its first space into timestamp and payload, and drops
complete lines containing no space. -/
theorem followContainerLogs_parsing_spec :
    (∀ reads : List (List Char), emittedLogLines reads = specLogLines reads.flatten)
    ∧ (∀ l : List Char, ' ' ∉ l → parseLogLine l = none)
    ∧ (∀ pre rest : List Char, ' ' ∉ pre →
        parseLogLine (pre ++ ' ' :: rest) = some ⟨pre, rest⟩) := by
  refine ⟨fun reads => ?_, fun l h => ?_, fun pre rest h => ?_⟩
  · rw [emittedLogLines, followReads_flatten]
    have hspec := (processChunk_spec reads.flatten [] (by simp)).1
    rw [List.nil_append] at hspec
    rw [hspec, specLogLines]
    rw [show parseLogLine = specParseLine from funext parseLogLine_eq_spec]
  · rw [parseLogLine, breakAt_of_not_mem h]
  · rw [parseLogLine, breakAt_append h]

theorem followContainerLogs_parsing_spec_witness :
    emittedLogLines [['t', 's', ' ', 'a'], ['b', '\n', 'x', '\n']] =
      specLogLines [['t', 's', ' ', 'a'], ['b', '\n', 'x', '\n']].flatten
    ∧ parseLogLine ['a', 'b'] = none
    ∧ parseLogLine (['t'] ++ ' ' :: ['x']) = some ⟨['t'], ['x']⟩ :=
  ⟨followContainerLogs_parsing_spec.1 [['t', 's', ' ', 'a'], ['b', '\n', 'x', '\n']],
   followContainerLogs_parsing_spec.2.1 ['a', 'b'] (by decide),
   followContainerLogs_parsing_spec.2.2 ['t'] ['x'] (by decide)⟩

/-! ### Claim C4 -/

/-- C4 (counterexample): a read whose bytes contain no newline, and a read
whose only complete line contains no space, each deliver a chunk with zero
lines. -/
theorem followReads_empty_chunk_delivered :
    followReads [] [['a', 'b', 'c']] = [[]]
    ∧ followReads [] [['x', 'y', '\n']] = [[]] := by
  constructor <;> rfl

/-- C4 (amended): the follower delivers exactly one chunk per read returning
at least one byte — including chunks with zero lines — and the lines of all
delivered chunks are exactly the parse of the byte stream. -/
theorem followReads_one_chunk_per_nonempty_read :
    ∀ reads : List (List Char),
      (followReads [] reads).length = (reads.filter (fun r => !r.isEmpty)).length
      ∧ (followReads [] reads).flatten = (processChunk [] reads.flatten).1 :=
  fun reads => ⟨followReads_length reads [], followReads_flatten reads []⟩

/-! ## Pod tracker (`pod.go`) -/

/-- The `TrackerState` values the pod tracker uses: `Initial` and
`ResourceAdded` for the pod itself, the `Container*` values per container.
A missing `ContainerTrackerStates` entry reads as the map's zero value,
modelled by `initial` (the claims do not depend on its identity). -/
inductive TrackerState
  | initial
  | resourceAdded
  | containerWaiting
  | containerRunning
  | containerTerminated
deriving DecidableEq, Repr

/-- `corev1.ContainerStateWaiting` reduced to the fields read by
`handleContainersState`. -/
structure ContainerWaitingState where
  reason : String
  message : String
deriving DecidableEq, Repr

/-- `corev1.ContainerStatus` reduced to the fields `handleContainersState`
reads: the name and which of `State.Waiting` / `State.Running` /
`State.Terminated` are present (`Running` and `Terminated` matter only by
presence). -/
structure GoContainerStatus where
  name : String
  waiting : Option ContainerWaitingState
  running : Bool
  terminated : Bool
deriving DecidableEq, Repr

/-- `corev1.PodPhase`. -/
inductive PodPhase
  | pending
  | running
  | succeeded
  | failed
  | unknown
deriving DecidableEq, Repr

/-- `corev1.Pod` reduced to what the pod tracker reads: the status phase, the
init and main container status arrays, and the spec's container name lists
(the manifest `Get` in `runContainersTrackers` is modelled as returning the
same pod object the informer delivered). -/
structure PodObj where
  phase : PodPhase
  initContainerStatuses : List GoContainerStatus
  containerStatuses : List GoContainerStatus
  specInitContainers : List String
  specContainers : List String
deriving DecidableEq, Repr

/-- `ContainerError` from `pod.go`. -/
structure ContainerError where
  message : String
  containerName : String
deriving DecidableEq, Repr

/-- `ContainerTrackerStates` as an association list. -/
abbrev StateMap := List (String × TrackerState)

/-- Go map assignment `m[k] = v`. -/
def setState : StateMap → String → TrackerState → StateMap
  | [], k, v => [(k, v)]
  | (k', v') :: rest, k, v =>
    if k' = k then (k, v) :: rest else (k', v') :: setState rest k v

/-- The body of the loop in `handleContainersState` for one container status:
updates `ContainerTrackerStates` (Waiting, then Running, then Terminated, in
source order) and emits one `ContainerError` when the status is Waiting with
reason `ImagePullBackOff`, `ErrImagePull` or `CrashLoopBackOff`, with message
`"<reason>: <detail>"`. -/
def processContainerStatus (m : StateMap) (cs : GoContainerStatus) :
    StateMap × List ContainerError :=
  let step1 : StateMap × List ContainerError :=
    match cs.waiting with
    | some w =>
      (setState m cs.name TrackerState.containerWaiting,
       if w.reason = "ImagePullBackOff" ∨ w.reason = "ErrImagePull"
          ∨ w.reason = "CrashLoopBackOff"
       then [{ message := w.reason ++ ": " ++ w.message, containerName := cs.name }]
       else [])
    | none => (m, [])
  let m1 := if cs.running then setState step1.1 cs.name TrackerState.containerRunning else step1.1
  let m2 := if cs.terminated then setState m1 cs.name TrackerState.containerTerminated else m1
  (m2, step1.2)

/-- `PodTracker.handleContainersState`: processes the concatenation of the
init and main container status arrays. -/
def handleContainersState (m : StateMap) (o : PodObj) : StateMap × List ContainerError :=
  (o.initContainerStatuses ++ o.containerStatuses).foldl
    (fun acc cs =>
      let r := processContainerStatus acc.1 cs
      (r.1, acc.2 ++ r.2))
    (m, [])

/-- Feed-visible emissions of the pod tracker's loop. -/
inductive PodOut
  | addedSignal
  | succeededSignal
  | failedSignal
  | containerErrorEmit (e : ContainerError)
  | containerTrackerStart (name : String)
deriving DecidableEq, Repr

/-- `PodTracker.handlePodState`: runs `handleContainersState` (emitting the
container errors), then, when `TrackedContainers` is empty and the phase is
terminal, emits `Succeeded`/`Failed` and reports `done`. -/
def handlePodState (m : StateMap) (tracked : List String) (o : PodObj) :
    StateMap × List PodOut × Bool :=
  let r := handleContainersState m o
  let outs := r.2.map PodOut.containerErrorEmit
  if tracked.isEmpty then
    match o.phase with
    | PodPhase.succeeded => (r.1, outs ++ [PodOut.succeededSignal], true)
    | PodPhase.failed => (r.1, outs ++ [PodOut.failedSignal], true)
    | _ => (r.1, outs, false)
  else (r.1, outs, false)

/-- Go error values as the trackers observe them: `stopTrack` is the distinct
non-nil `tracker.StopTrack` sentinel, `timeoutErr` is `ErrTrackTimeout`,
`interruptedErr` is `ErrTrackInterrupted`, `errCode n` any other error. -/
inductive GoErr
  | stopTrack
  | timeoutErr
  | interruptedErr
  | errCode (n : Nat)
deriving DecidableEq, Repr

/-- Whether a select-loop iteration falls through to the next iteration or
returns from the enclosing function (`ret none` models returning nil). -/
inductive LoopCtl
  | next
  | ret (e : Option GoErr)
deriving DecidableEq, Repr

/-- The mutable state of `PodTracker` read by its loop. -/
structure PodState where
  state : TrackerState
  containerStates : StateMap
  trackedContainers : List String
  lastObject : Option PodObj
deriving DecidableEq, Repr

/-- `NewPodTracker` field initialisation. -/
def podInit : PodState := ⟨TrackerState.initial, [], [], none⟩

/-- The inbound channel messages of `PodTracker.Track`'s select loop (the
context-done and error branches return at once and emit nothing). -/
inductive PodIn
  | containerDone (name : String)
  | objectAdded (o : PodObj)
  | objectModified (o : PodObj)
  | objectDeleted
deriving DecidableEq, Repr

/-- Result of one iteration of `PodTracker.Track`'s select loop. -/
structure PodStepRes where
  ctl : LoopCtl
  st : PodState
  outs : List PodOut
deriving DecidableEq, Repr

/-- One iteration of the select loop in `PodTracker.Track`:
* `containerDone` removes the container from `TrackedContainers` and handles
  the last observed pod state (container trackers — the only senders on
  `containerDone` — start only after the first Added, so `lastObject` is then
  non-nil; the nil case is modelled as a no-op);
* `objectAdded` records the object and, when the tracker is still `Initial`,
  emits `Added` and starts one container tracker per manifest container
  (`runContainersTrackers`), then handles the pod state;
* `objectModified` records the object and handles the pod state;
* `objectDeleted` returns nil. -/
def podStep (s : PodState) : PodIn → PodStepRes
  | PodIn.containerDone name =>
    let tracked := s.trackedContainers.filter (fun n => n ≠ name)
    match s.lastObject with
    | some o =>
      let r := handlePodState s.containerStates tracked o
      { ctl := if r.2.2 then LoopCtl.ret none else LoopCtl.next,
        st := { s with containerStates := r.1, trackedContainers := tracked },
        outs := r.2.1 }
    | none =>
      { ctl := LoopCtl.next, st := { s with trackedContainers := tracked }, outs := [] }
  | PodIn.objectAdded o =>
    let names := o.specInitContainers ++ o.specContainers
    let s1 := { s with lastObject := some o }
    let s2 :=
      if s1.state = TrackerState.initial then
        { s1 with
            state := TrackerState.resourceAdded,
            containerStates := names.foldl (fun m n => setState m n TrackerState.initial)
              s1.containerStates,
            trackedContainers := s1.trackedContainers ++ names }
      else s1
    let startOuts :=
      if s1.state = TrackerState.initial then
        PodOut.addedSignal :: names.map PodOut.containerTrackerStart
      else []
    let r := handlePodState s2.containerStates s2.trackedContainers o
    { ctl := if r.2.2 then LoopCtl.ret none else LoopCtl.next,
      st := { s2 with containerStates := r.1 },
      outs := startOuts ++ r.2.1 }
  | PodIn.objectModified o =>
    let s1 := { s with lastObject := some o }
    let r := handlePodState s1.containerStates s1.trackedContainers o
    { ctl := if r.2.2 then LoopCtl.ret none else LoopCtl.next,
      st := { s1 with containerStates := r.1 },
      outs := r.2.1 }
  | PodIn.objectDeleted =>
    { ctl := LoopCtl.ret none, st := s, outs := [] }

/-! ## `TrackPod` feed dispatch -/

/-- The callback results a consumer's `PodFeed` returns during one `TrackPod`
invocation (`none` models a nil error). -/
structure PodFeedResults where
  added : Option GoErr
  succeeded : Option GoErr
  failed : Option GoErr
  containerLogChunk : Option GoErr
  containerError : Option GoErr
deriving DecidableEq, Repr

/-- The channel from which `TrackPod`'s select loop received a value. -/
inductive TrackPodEvent
  | containerLogChunkMsg
  | containerErrorMsg
  | addedMsg
  | succeededMsg
  | failedMsg
  | errorChanMsg (e : GoErr)
  | doneChanMsg
deriving DecidableEq, Repr

/-- One iteration of the select loop in `TrackPod` (`pod.go`).  Each branch
invokes the consumer callback and then performs the two checks in the order
written in the source: `err == StopTrack` first for `ContainerLogChunk` and
`Added`, but `err != nil` first for `ContainerError`, `Succeeded` and
`Failed` (leaving their later `err == StopTrack` check unreachable). -/
def trackPodStep (feed : PodFeedResults) : TrackPodEvent → LoopCtl
  | TrackPodEvent.containerLogChunkMsg =>
    let err := feed.containerLogChunk
    if err = some GoErr.stopTrack then LoopCtl.ret none
    else if err ≠ none then LoopCtl.ret err
    else LoopCtl.next
  | TrackPodEvent.containerErrorMsg =>
    let err := feed.containerError
    if err ≠ none then LoopCtl.ret err
    else if err = some GoErr.stopTrack then LoopCtl.ret none
    else LoopCtl.next
  | TrackPodEvent.addedMsg =>
    let err := feed.added
    if err = some GoErr.stopTrack then LoopCtl.ret none
    else if err ≠ none then LoopCtl.ret err
    else LoopCtl.next
  | TrackPodEvent.succeededMsg =>
    let err := feed.succeeded
    if err ≠ none then LoopCtl.ret err
    else if err = some GoErr.stopTrack then LoopCtl.ret none
    else LoopCtl.next
  | TrackPodEvent.failedMsg =>
    let err := feed.failed
    if err ≠ none then LoopCtl.ret err
    else if err = some GoErr.stopTrack then LoopCtl.ret none
    else LoopCtl.next
  | TrackPodEvent.errorChanMsg e => LoopCtl.ret (some e)
  | TrackPodEvent.doneChanMsg => LoopCtl.ret none

/-- A feed whose every callback returns the `StopTrack` sentinel. -/
def stopTrackFeed : PodFeedResults :=
  ⟨some GoErr.stopTrack, some GoErr.stopTrack, some GoErr.stopTrack,
   some GoErr.stopTrack, some GoErr.stopTrack⟩

/-- A feed whose every callback returns the same result. -/
def constFeed (r : Option GoErr) : PodFeedResults := ⟨r, r, r, r, r⟩

/-! ### Claim C1 -/

/-- C1: evaluating `TrackPod`'s dispatch at a feed returning `StopTrack`
shows the `ContainerError`, `Succeeded` and `Failed` branches return the
`StopTrack` error value — not nil, contrary to the claim and the spec —
because their `err != nil` check precedes the (then unreachable)
`err == StopTrack` check; the `ContainerLogChunk` and `Added` branches return
nil as claimed, and every branch propagates any other non-nil error. -/
theorem trackPodStep_stopTrack_eval :
    trackPodStep stopTrackFeed TrackPodEvent.containerErrorMsg
      = LoopCtl.ret (some GoErr.stopTrack)
    ∧ trackPodStep stopTrackFeed TrackPodEvent.succeededMsg
      = LoopCtl.ret (some GoErr.stopTrack)
    ∧ trackPodStep stopTrackFeed TrackPodEvent.failedMsg
      = LoopCtl.ret (some GoErr.stopTrack)
    ∧ trackPodStep stopTrackFeed TrackPodEvent.containerLogChunkMsg = LoopCtl.ret none
    ∧ trackPodStep stopTrackFeed TrackPodEvent.addedMsg = LoopCtl.ret none
    ∧ (∀ n : Nat,
        trackPodStep (constFeed (some (GoErr.errCode n))) TrackPodEvent.containerErrorMsg
          = LoopCtl.ret (some (GoErr.errCode n))
        ∧ trackPodStep (constFeed (some (GoErr.errCode n))) TrackPodEvent.succeededMsg
          = LoopCtl.ret (some (GoErr.errCode n))
        ∧ trackPodStep (constFeed (some (GoErr.errCode n))) TrackPodEvent.failedMsg
          = LoopCtl.ret (some (GoErr.errCode n))
        ∧ trackPodStep (constFeed (some (GoErr.errCode n))) TrackPodEvent.containerLogChunkMsg
          = LoopCtl.ret (some (GoErr.errCode n))
        ∧ trackPodStep (constFeed (some (GoErr.errCode n))) TrackPodEvent.addedMsg
          = LoopCtl.ret (some (GoErr.errCode n))) := by
  refine ⟨rfl, rfl, rfl, rfl, rfl, fun n => ⟨?_, ?_, ?_, ?_, ?_⟩⟩
    <;> simp [trackPodStep, constFeed]

/-! ### Claim C9 -/

/-- C9: processing a container status whose Waiting state is present emits a
`ContainerError` named after the container with message
`"<reason>: <detail>"` exactly when the reason is `ImagePullBackOff`,
`ErrImagePull` or `CrashLoopBackOff`, and emits nothing for any other
reason. -/
theorem containerError_on_backoff_reasons :
    ∀ (m : StateMap) (cs : GoContainerStatus) (r msg : String),
      cs.waiting = some ⟨r, msg⟩ →
      ((r = "ImagePullBackOff" ∨ r = "ErrImagePull" ∨ r = "CrashLoopBackOff") →
        (processContainerStatus m cs).2 =
          [{ message := r ++ ": " ++ msg, containerName := cs.name }])
      ∧ (¬(r = "ImagePullBackOff" ∨ r = "ErrImagePull" ∨ r = "CrashLoopBackOff") →
        (processContainerStatus m cs).2 = []) := by
  intro m cs r msg hw
  constructor <;> intro hr <;> simp [processContainerStatus, hw, hr]

/-- A container status in Waiting with reason `ImagePullBackOff`. -/
def csPullBackOff : GoContainerStatus :=
  ⟨"c", some ⟨"ImagePullBackOff", "back-off"⟩, false, false⟩

/-- A container status in Waiting with an unrelated reason. -/
def csCreating : GoContainerStatus :=
  ⟨"c", some ⟨"ContainerCreating", ""⟩, false, false⟩

theorem containerError_on_backoff_reasons_witness :
    (processContainerStatus [] csPullBackOff).2 =
      [{ message := "ImagePullBackOff" ++ ": " ++ "back-off", containerName := csPullBackOff.name }]
    ∧ (processContainerStatus [] csCreating).2 = [] :=
  ⟨(containerError_on_backoff_reasons [] csPullBackOff "ImagePullBackOff" "back-off" rfl).1
      (Or.inl rfl),
   (containerError_on_backoff_reasons [] csCreating "ContainerCreating" "" rfl).2
      (by decide)⟩

/-! ### Claim C7 -/

theorem handlePodState_characterisation (m : StateMap) (tracked : List String) (o : PodObj) :
    ((handlePodState m tracked o).2.2 = true
      ↔ tracked = [] ∧ (o.phase = PodPhase.succeeded ∨ o.phase = PodPhase.failed))
    ∧ (PodOut.succeededSignal ∈ (handlePodState m tracked o).2.1
      ↔ tracked = [] ∧ o.phase = PodPhase.succeeded)
    ∧ (PodOut.failedSignal ∈ (handlePodState m tracked o).2.1
      ↔ tracked = [] ∧ o.phase = PodPhase.failed) := by
  have hmap : ∀ l : List ContainerError,
      PodOut.succeededSignal ∉ l.map PodOut.containerErrorEmit
      ∧ PodOut.failedSignal ∉ l.map PodOut.containerErrorEmit := by
    intro l
    constructor <;> simp [List.mem_map]
  rcases htr : tracked with _ | ⟨t, ts⟩
  · cases hp : o.phase <;>
      simp [handlePodState, hp, (hmap (handleContainersState m o).2).1,
        (hmap (handleContainersState m o).2).2]
  · cases hp : o.phase <;>
      simp [handlePodState, hp, (hmap (handleContainersState m o).2).1,
        (hmap (handleContainersState m o).2).2]

/-- C7: whenever the pod tracker handles a pod state snapshot — on a
`containerDone` signal, an Added event or a Modified event — it emits
`Succeeded` and returns nil when the (then current) `TrackedContainers` is
empty and the phase is `Succeeded`, emits `Failed` and returns nil when it is
empty and the phase is `Failed`, and otherwise emits neither signal and the
loop continues. -/
theorem podTracker_completion_rule :
    (∀ (s : PodState) (name : String) (o : PodObj), s.lastObject = some o →
      (((podStep s (PodIn.containerDone name)).st.trackedContainers = []
          ∧ o.phase = PodPhase.succeeded) →
        (podStep s (PodIn.containerDone name)).ctl = LoopCtl.ret none
        ∧ PodOut.succeededSignal ∈ (podStep s (PodIn.containerDone name)).outs)
      ∧ (((podStep s (PodIn.containerDone name)).st.trackedContainers = []
          ∧ o.phase = PodPhase.failed) →
        (podStep s (PodIn.containerDone name)).ctl = LoopCtl.ret none
        ∧ PodOut.failedSignal ∈ (podStep s (PodIn.containerDone name)).outs)
      ∧ (((podStep s (PodIn.containerDone name)).st.trackedContainers ≠ []
          ∨ (o.phase ≠ PodPhase.succeeded ∧ o.phase ≠ PodPhase.failed)) →
        (podStep s (PodIn.containerDone name)).ctl = LoopCtl.next
        ∧ PodOut.succeededSignal ∉ (podStep s (PodIn.containerDone name)).outs
        ∧ PodOut.failedSignal ∉ (podStep s (PodIn.containerDone name)).outs))
    ∧ (∀ (s : PodState) (o : PodObj),
      (((podStep s (PodIn.objectAdded o)).st.trackedContainers = []
          ∧ o.phase = PodPhase.succeeded) →
        (podStep s (PodIn.objectAdded o)).ctl = LoopCtl.ret none
        ∧ PodOut.succeededSignal ∈ (podStep s (PodIn.objectAdded o)).outs)
      ∧ (((podStep s (PodIn.objectAdded o)).st.trackedContainers = []
          ∧ o.phase = PodPhase.failed) →
        (podStep s (PodIn.objectAdded o)).ctl = LoopCtl.ret none
        ∧ PodOut.failedSignal ∈ (podStep s (PodIn.objectAdded o)).outs)
      ∧ (((podStep s (PodIn.objectAdded o)).st.trackedContainers ≠ []
          ∨ (o.phase ≠ PodPhase.succeeded ∧ o.phase ≠ PodPhase.failed)) →
        (podStep s (PodIn.objectAdded o)).ctl = LoopCtl.next
        ∧ PodOut.succeededSignal ∉ (podStep s (PodIn.objectAdded o)).outs
        ∧ PodOut.failedSignal ∉ (podStep s (PodIn.objectAdded o)).outs))
    ∧ (∀ (s : PodState) (o : PodObj),
      (((podStep s (PodIn.objectModified o)).st.trackedContainers = []
          ∧ o.phase = PodPhase.succeeded) →
        (podStep s (PodIn.objectModified o)).ctl = LoopCtl.ret none
        ∧ PodOut.succeededSignal ∈ (podStep s (PodIn.objectModified o)).outs)
      ∧ (((podStep s (PodIn.objectModified o)).st.trackedContainers = []
          ∧ o.phase = PodPhase.failed) →
        (podStep s (PodIn.objectModified o)).ctl = LoopCtl.ret none
        ∧ PodOut.failedSignal ∈ (podStep s (PodIn.objectModified o)).outs)
      ∧ (((podStep s (PodIn.objectModified o)).st.trackedContainers ≠ []
          ∨ (o.phase ≠ PodPhase.succeeded ∧ o.phase ≠ PodPhase.failed)) →
        (podStep s (PodIn.objectModified o)).ctl = LoopCtl.next
        ∧ PodOut.succeededSignal ∉ (podStep s (PodIn.objectModified o)).outs
        ∧ PodOut.failedSignal ∉ (podStep s (PodIn.objectModified o)).outs)) := by
  have iteT : ∀ b : Bool, b = true →
      (if b then LoopCtl.ret (none : Option GoErr) else LoopCtl.next) = LoopCtl.ret none := by
    intro b h
    rw [h]
    rfl
  have iteF : ∀ b : Bool, b = false →
      (if b then LoopCtl.ret (none : Option GoErr) else LoopCtl.next) = LoopCtl.next := by
    intro b h
    rw [h]
    rfl
  have bne : ∀ b : Bool, b = false → ¬b = true := by
    intro b h hh
    rw [h] at hh
    exact Bool.noConfusion hh
  have hfalse : ∀ (m : StateMap) (tracked : List String) (o : PodObj),
      (tracked ≠ [] ∨ (o.phase ≠ PodPhase.succeeded ∧ o.phase ≠ PodPhase.failed)) →
      (handlePodState m tracked o).2.2 = false := by
    intro m tracked o hcase
    rcases hb : (handlePodState m tracked o).2.2 with _ | _
    · rfl
    · obtain ⟨ht, hor⟩ := (handlePodState_characterisation m tracked o).1.mp hb
      rcases hcase with hne | ⟨hs, hf⟩
      · exact absurd ht hne
      · rcases hor with h | h
        · exact absurd h hs
        · exact absurd h hf
  have dispatch : ∀ (m : StateMap) (tracked : List String) (o : PodObj) (extra : List PodOut),
      PodOut.succeededSignal ∉ extra → PodOut.failedSignal ∉ extra →
      ((tracked = [] ∧ o.phase = PodPhase.succeeded →
        (if (handlePodState m tracked o).2.2 then LoopCtl.ret (none : Option GoErr)
          else LoopCtl.next) = LoopCtl.ret none
        ∧ PodOut.succeededSignal ∈ extra ++ (handlePodState m tracked o).2.1)
      ∧ (tracked = [] ∧ o.phase = PodPhase.failed →
        (if (handlePodState m tracked o).2.2 then LoopCtl.ret (none : Option GoErr)
          else LoopCtl.next) = LoopCtl.ret none
        ∧ PodOut.failedSignal ∈ extra ++ (handlePodState m tracked o).2.1)
      ∧ ((tracked ≠ [] ∨ (o.phase ≠ PodPhase.succeeded ∧ o.phase ≠ PodPhase.failed)) →
        (if (handlePodState m tracked o).2.2 then LoopCtl.ret (none : Option GoErr)
          else LoopCtl.next) = LoopCtl.next
        ∧ PodOut.succeededSignal ∉ extra ++ (handlePodState m tracked o).2.1
        ∧ PodOut.failedSignal ∉ extra ++ (handlePodState m tracked o).2.1)) := by
    intro m tracked o extra hex1 hex2
    obtain ⟨h1, h2, h3⟩ := handlePodState_characterisation m tracked o
    refine ⟨fun ⟨ht, hp⟩ => ⟨iteT _ (h1.mpr ⟨ht, Or.inl hp⟩),
        List.mem_append_right extra (h2.mpr ⟨ht, hp⟩)⟩,
      fun ⟨ht, hp⟩ => ⟨iteT _ (h1.mpr ⟨ht, Or.inr hp⟩),
        List.mem_append_right extra (h3.mpr ⟨ht, hp⟩)⟩,
      fun hcase => ?_⟩
    have hb := hfalse m tracked o hcase
    refine ⟨iteF _ hb, fun hm => ?_, fun hm => ?_⟩
    · rcases List.mem_append.mp hm with h | h
      · exact hex1 h
      · exact bne _ hb (h1.mpr ⟨(h2.mp h).1, Or.inl (h2.mp h).2⟩)
    · rcases List.mem_append.mp hm with h | h
      · exact hex2 h
      · exact bne _ hb (h1.mpr ⟨(h3.mp h).1, Or.inr (h3.mp h).2⟩)
  refine ⟨?_, ?_, ?_⟩
  · intro s name o hlast
    have hd := dispatch s.containerStates
      (s.trackedContainers.filter (fun n => n ≠ name)) o [] (by simp) (by simp)
    simp only [podStep, hlast]
    exact hd
  · intro s o
    by_cases hst : s.state = TrackerState.initial
    · have hd := dispatch
        ((o.specInitContainers ++ o.specContainers).foldl
          (fun m n => setState m n TrackerState.initial) s.containerStates)
        (s.trackedContainers ++ (o.specInitContainers ++ o.specContainers)) o
        (PodOut.addedSignal ::
          (o.specInitContainers ++ o.specContainers).map PodOut.containerTrackerStart)
        (by simp [List.mem_map]) (by simp [List.mem_map])
      simp only [podStep, if_pos hst]
      exact hd
    · have hd := dispatch s.containerStates s.trackedContainers o [] (by simp) (by simp)
      simp only [podStep, if_neg hst]
      exact hd
  · intro s o
    have hd := dispatch s.containerStates s.trackedContainers o [] (by simp) (by simp)
    simp only [podStep]
    exact hd

/-- A pod that has reached phase Succeeded with one spec container. -/
def podSucceededObj : PodObj := ⟨PodPhase.succeeded, [], [], [], ["c"]⟩

/-- A pod tracker state with that pod observed and container `c` still
tracked. -/
def podSucceededState : PodState :=
  ⟨TrackerState.resourceAdded, [("c", TrackerState.containerTerminated)], ["c"],
   some podSucceededObj⟩

theorem podTracker_completion_rule_witness :
    (podStep podSucceededState (PodIn.containerDone "c")).ctl = LoopCtl.ret none
    ∧ PodOut.succeededSignal ∈ (podStep podSucceededState (PodIn.containerDone "c")).outs :=
  (podTracker_completion_rule.1 podSucceededState "c" podSucceededObj rfl).1 (by decide)

/-! ## Deployment controller tracker (`deployment/tracker.go`) -/

/-- `appsv1.Deployment` reduced to what the claims depend on.
`isReady` — Modelled from the spec: readiness computation is delegated to an
external calculator (`utils.DeploymentReadyStatus`, not under the sources);
the object carries the calculator's verdict for this observation.
`newRSName` — Modelled from the spec: `utils.IsReplicaSetNew` marks a
revision as new iff it matches the controller's current generation; the
object names its current-generation replica set. -/
structure DeployObj where
  isReady : Bool
  newRSName : String
deriving DecidableEq, Repr

/-- Modelled from the spec: `utils.IsReplicaSetNew` — a revision is new iff
it matches the current generation of the last observed controller object
(false when no controller object is recorded). -/
def isReplicaSetNew (lastObject : Option DeployObj) (rsName : String) : Bool :=
  match lastObject with
  | some o => rsName == o.newRSName
  | none => false

/-- The mutable state of the deployment `Tracker` read by its loop
(`NewTracker` zero values: empty state string, `CurrentReady` false, nil
`lastObject`, empty reason, empty maps and lists). -/
structure DepState where
  state : String
  currentReady : Bool
  lastObject : Option DeployObj
  failedReason : String
  knownReplicaSets : List String
  podStatuses : List String
  trackedPods : List String
deriving DecidableEq, Repr

def depInit : DepState := ⟨"", false, none, "", [], [], []⟩

/-- The inbound channel messages of the deployment `Tracker.Track` select
loop (the context-done and error branches return at once and emit nothing).
Pod events carry the pod name and the owner replica-set name that
`utils.GetPodReplicaSetName` extracts. -/
inductive DepIn
  | resourceAdded (o : DeployObj)
  | resourceModified (o : DeployObj)
  | resourceDeleted
  | resourceFailed (reason : String)
  | rsAdded (name : String)
  | rsModified (name : String)
  | rsDeleted (name : String)
  | podAdded (podName rsName : String)
  | podDone (podName : String)
  | podStatusReport (podName : String)
  | podLogChunk (podName rsName : String)
  | podError (podName rsName : String)
deriving DecidableEq, Repr

/-- The observable emissions of the deployment tracker: feed-channel sends
plus the informer / pod-tracker start actions. `statusReport` carries the
`IsFailed` flag and `FailedReason` the emitted `DeploymentStatus` holds. -/
inductive DepOut
  | added (ready : Bool)
  | ready
  | failed (reason : String)
  | statusReport (isFailed : Bool) (failedReason : String)
  | addedRS (name : String) (isNew : Bool)
  | addedPod (podName rsName : String) (isNew : Bool)
  | podTrackerStart (podName : String)
  | rsInformerStart
  | podsInformerStart
  | eventsInformerStart
  | podLogChunkFwd (podName rsName : String) (isNew : Bool)
  | podErrorFwd (podName rsName : String) (isNew : Bool)
deriving DecidableEq, Repr

/-- Go list insertion `m[k] = v` for the name-keyed maps, reduced to the key
set. -/
def insertName (l : List String) (n : String) : List String :=
  if n ∈ l then l else l ++ [n]

/-- `Tracker.handleDeploymentState`: computes the previous and new readiness
(previous readiness is `CurrentReady` when a previous object exists, false
otherwise), records the new object and readiness, emits a `StatusReport`,
and reports whether a false-to-true readiness edge occurred. -/
def handleDeploymentState (s : DepState) (o : DeployObj) : DepState × List DepOut × Bool :=
  let prevReady := if s.lastObject.isSome then s.currentReady else false
  let newReady := o.isReady
  let s1 := { s with currentReady := newReady, lastObject := some o }
  (s1, [DepOut.statusReport (s1.state == "Failed") s1.failedReason],
   !prevReady && newReady)

/-- One iteration of the deployment `Tracker.Track` select loop.  Branches
follow `tracker.go`:
* controller Added: `handleDeploymentState`, then — only when `State` is the
  empty string — set `State = "Started"` and emit `Added(ready)`; always
  start the replica-sets, pods and events informers (the first two return
  without starting when `lastObject` is nil, which cannot happen here as
  `handleDeploymentState` has just recorded the object);
* controller Modified: `handleDeploymentState`; emit `Ready` on a readiness
  edge;
* controller Deleted: clear `lastObject`, emit an empty `StatusReport`, set
  `State = "Deleted"`, emit `Failed("resource deleted")`;
* failure reason: set `State = "Failed"`, record the reason, emit a
  `StatusReport` only when `lastObject` is non-nil, then emit `Failed`;
* replica set Added/Modified/Deleted: maintain `knownReplicaSets`, emitting
  `AddedReplicaSet` with freshly computed `isNew` on Added;
* pod Added: emit `AddedPod` (with computed `isNew`) and start a pod tracker
  (`runPodTracker` appends to `TrackedPods` unconditionally);
* pod done: remove the name from `TrackedPods`;
* pod status report: merge and emit a `StatusReport` when `lastObject` is
  non-nil;
* pod log chunk / pod error: recompute `isNew` and forward. -/
def depStep (s : DepState) : DepIn → DepState × List DepOut
  | DepIn.resourceAdded o =>
    let h := handleDeploymentState s o
    let s1 := h.1
    let init2 : DepState × List DepOut :=
      if s1.state = "" then
        ({ s1 with state := "Started" }, h.2.1 ++ [DepOut.added h.2.2])
      else (s1, h.2.1)
    let outs := init2.2
    let outs := if init2.1.lastObject.isSome then outs ++ [DepOut.rsInformerStart] else outs
    let outs := if init2.1.lastObject.isSome then outs ++ [DepOut.podsInformerStart] else outs
    (init2.1, outs ++ [DepOut.eventsInformerStart])
  | DepIn.resourceModified o =>
    let h := handleDeploymentState s o
    (h.1, h.2.1 ++ if h.2.2 then [DepOut.ready] else [])
  | DepIn.resourceDeleted =>
    ({ s with lastObject := none, state := "Deleted" },
     [DepOut.statusReport false "", DepOut.failed "resource deleted"])
  | DepIn.resourceFailed reason =>
    let s1 := { s with state := "Failed", failedReason := reason }
    (s1,
     (if s1.lastObject.isSome then [DepOut.statusReport true reason] else [])
       ++ [DepOut.failed reason])
  | DepIn.rsAdded name =>
    let s1 := { s with knownReplicaSets := insertName s.knownReplicaSets name }
    (s1, [DepOut.addedRS name (isReplicaSetNew s1.lastObject name)])
  | DepIn.rsModified name =>
    ({ s with knownReplicaSets := insertName s.knownReplicaSets name }, [])
  | DepIn.rsDeleted name =>
    ({ s with knownReplicaSets := s.knownReplicaSets.filter (fun n => n ≠ name) }, [])
  | DepIn.podAdded podName rsName =>
    let isNew := isReplicaSetNew s.lastObject rsName
    let s1 := { s with trackedPods := s.trackedPods ++ [podName] }
    (s1, [DepOut.addedPod podName rsName isNew, DepOut.podTrackerStart podName])
  | DepIn.podDone podName =>
    ({ s with trackedPods := s.trackedPods.filter (fun n => n ≠ podName) }, [])
  | DepIn.podStatusReport podName =>
    let s1 := { s with podStatuses := insertName s.podStatuses podName }
    (s1,
     if s1.lastObject.isSome then [DepOut.statusReport (s1.state == "Failed") s1.failedReason]
     else [])
  | DepIn.podLogChunk podName rsName =>
    (s, [DepOut.podLogChunkFwd podName rsName (isReplicaSetNew s.lastObject rsName)])
  | DepIn.podError podName rsName =>
    (s, [DepOut.podErrorFwd podName rsName (isReplicaSetNew s.lastObject rsName)])

/-- Runs the deployment loop over a list of inbound messages, collecting all
emissions. -/
def depRunFrom (s : DepState) : List DepIn → List DepOut
  | [] => []
  | i :: rest =>
    let r := depStep s i
    r.2 ++ depRunFrom r.1 rest

/-- The final state after processing a list of inbound messages. -/
def depStateFrom (s : DepState) : List DepIn → DepState
  | [] => s
  | i :: rest => depStateFrom (depStep s i).1 rest

def depRun (l : List DepIn) : List DepOut := depRunFrom depInit l

def depFinalState (l : List DepIn) : DepState := depStateFrom depInit l

/-! ## DaemonSet controller tracker (the `daemonset` package) -/

/-- `appsv1.DaemonSet` reduced to what the claims depend on.
`rolloutReady` — Modelled from the spec: the rollout readiness verdict of the
external calculator (`DaemonSetRolloutStatus`, not under the sources) for
this observation. -/
structure DsObj where
  rolloutReady : Bool
deriving DecidableEq, Repr

/-- The mutable state of the daemonset `Tracker` read by its loop.  Note the
daemonset tracker has no `CurrentReady` and no recorded failure reason. -/
structure DsState where
  state : String
  lastObject : Option DsObj
  podStatuses : List String
  trackedPods : List String
deriving DecidableEq, Repr

def dsInit : DsState := ⟨"", none, [], []⟩

/-- The inbound channel messages of the daemonset `Tracker.Track` select
loop. -/
inductive DsIn
  | resourceAdded (o : DsObj)
  | resourceModified (o : DsObj)
  | resourceDeleted
  | resourceFailed (reason : String)
  | podAdded (podName : String)
  | podDone (podName : String)
  | podStatusReport (podName : String)
deriving DecidableEq, Repr

/-- The observable emissions of the daemonset tracker.  Its `StatusReport`
payload (`DaemonSetStatus`) has no failure flag or reason field. -/
inductive DsOut
  | added (ready : Bool)
  | ready
  | failed (reason : String)
  | statusReport
  | addedPod (podName : String)
  | podTrackerStart (podName : String)
  | podsInformerStart
  | eventsInformerStart
deriving DecidableEq, Repr

/-- `Tracker.handleDaemonSetStatus`: delegates to the rollout status
calculator on the new object alone — no previous-observation state is
consulted. -/
def handleDaemonSetStatus (o : DsObj) : Bool :=
  o.rolloutReady

/-- One iteration of the daemonset `Tracker.Track` select loop, following the
`daemonset` package source:
* resource Added: record the object, emit `StatusReport`, compute readiness;
  when `State` is the empty string set `State = "Started"` and emit
  `Added(ready)`; start the pods and events informers (both return without
  starting when `lastObject` is nil);
* resource Modified: compute readiness from the new object, record it, emit
  `StatusReport`, and emit `Ready` whenever the computed readiness is true;
* resource Deleted: clear `lastObject`, emit an empty `StatusReport`, set
  `State = "Deleted"`, emit `Failed("resource deleted")`;
* failure reason: set `State = "Failed"` and emit `Failed(reason)` — nothing
  else;
* pod Added: emit `AddedPod` and start a pod tracker (appending to
  `TrackedPods` unconditionally);
* pod done: remove the name from `TrackedPods`;
* pod status report: merge and emit `StatusReport` when `lastObject` is
  non-nil. -/
def dsStep (s : DsState) : DsIn → DsState × List DsOut
  | DsIn.resourceAdded o =>
    let s1 := { s with lastObject := some o }
    let ready := handleDaemonSetStatus o
    let init2 : DsState × List DsOut :=
      if s1.state = "" then
        ({ s1 with state := "Started" }, [DsOut.statusReport, DsOut.added ready])
      else (s1, [DsOut.statusReport])
    let outs := init2.2
    let outs := if init2.1.lastObject.isSome then outs ++ [DsOut.podsInformerStart] else outs
    let outs := if init2.1.lastObject.isSome then outs ++ [DsOut.eventsInformerStart] else outs
    (init2.1, outs)
  | DsIn.resourceModified o =>
    let ready := handleDaemonSetStatus o
    let s1 := { s with lastObject := some o }
    (s1, [DsOut.statusReport] ++ if ready then [DsOut.ready] else [])
  | DsIn.resourceDeleted =>
    ({ s with lastObject := none, state := "Deleted" },
     [DsOut.statusReport, DsOut.failed "resource deleted"])
  | DsIn.resourceFailed reason =>
    ({ s with state := "Failed" }, [DsOut.failed reason])
  | DsIn.podAdded podName =>
    let s1 := { s with trackedPods := s.trackedPods ++ [podName] }
    (s1, [DsOut.addedPod podName, DsOut.podTrackerStart podName])
  | DsIn.podDone podName =>
    ({ s with trackedPods := s.trackedPods.filter (fun n => n ≠ podName) }, [])
  | DsIn.podStatusReport podName =>
    let s1 := { s with podStatuses := insertName s.podStatuses podName }
    (s1, if s1.lastObject.isSome then [DsOut.statusReport] else [])

/-- Runs the daemonset loop over a list of inbound messages, collecting all
emissions. -/
def dsRunFrom (s : DsState) : List DsIn → List DsOut
  | [] => []
  | i :: rest =>
    let r := dsStep s i
    r.2 ++ dsRunFrom r.1 rest

def dsRun (l : List DsIn) : List DsOut := dsRunFrom dsInit l

/-! ### Claim C2 -/

/-- Number of pod-tracker starts for pod `p` among the emissions. -/
def countPodTrackerStarts (p : String) (outs : List DepOut) : Nat :=
  outs.countP (fun o =>
    match o with
    | DepOut.podTrackerStart q => q == p
    | _ => false)

/-- Number of `AddedPod` emissions for pod `p`. -/
def countAddedPodEmits (p : String) (outs : List DepOut) : Nat :=
  outs.countP (fun o =>
    match o with
    | DepOut.addedPod q _ _ => q == p
    | _ => false)

/-- Number of inbound pod Added events for pod `p`. -/
def countPodAddedEvents (p : String) (ins : List DepIn) : Nat :=
  ins.countP (fun i =>
    match i with
    | DepIn.podAdded q _ => q == p
    | _ => false)

/-- C2 (counterexample): a re-delivered pod Added event for a pod already in
`TrackedPods` emits a second `AddedPod` and starts a second pod tracker, and
`TrackedPods` then holds the name twice. -/
theorem deployment_duplicate_pod_tracker :
    (depFinalState [DepIn.resourceAdded ⟨false, "rs1"⟩, DepIn.podAdded "p1" "rs1",
        DepIn.podAdded "p1" "rs1"]).trackedPods = ["p1", "p1"]
    ∧ countAddedPodEmits "p1" (depRun [DepIn.resourceAdded ⟨false, "rs1"⟩,
        DepIn.podAdded "p1" "rs1", DepIn.podAdded "p1" "rs1"]) = 2
    ∧ countPodTrackerStarts "p1" (depRun [DepIn.resourceAdded ⟨false, "rs1"⟩,
        DepIn.podAdded "p1" "rs1", DepIn.podAdded "p1" "rs1"]) = 2 := by
  refine ⟨rfl, ?_, ?_⟩ <;> decide

theorem depStep_pod_counts (s : DepState) (i : DepIn) (p : String) :
    countPodTrackerStarts p (depStep s i).2 = countPodAddedEvents p [i]
    ∧ countAddedPodEmits p (depStep s i).2 = countPodAddedEvents p [i] := by
  cases i <;>
    simp only [depStep, handleDeploymentState, countPodTrackerStarts, countAddedPodEmits,
      countPodAddedEvents] <;>
    first
      | (split_ifs <;> simp_all [List.countP_append, List.countP_cons])
      | simp [List.countP_append, List.countP_cons]

theorem depRunFrom_pod_counts :
    ∀ (l : List DepIn) (s : DepState) (p : String),
      countPodTrackerStarts p (depRunFrom s l) = countPodAddedEvents p l
      ∧ countAddedPodEmits p (depRunFrom s l) = countPodAddedEvents p l := by
  intro l
  induction l with
  | nil => intro s p; exact ⟨rfl, rfl⟩
  | cons i rest ih =>
    intro s p
    obtain ⟨ihs, iha⟩ := ih (depStep s i).1 p
    obtain ⟨hs, ha⟩ := depStep_pod_counts s i p
    constructor
    · show ((depStep s i).2 ++ depRunFrom (depStep s i).1 rest).countP _ = _
      rw [List.countP_append]
      show countPodTrackerStarts p (depStep s i).2
        + countPodTrackerStarts p (depRunFrom (depStep s i).1 rest) = _
      rw [ihs, hs]
      show countPodAddedEvents p [i] + countPodAddedEvents p rest = countPodAddedEvents p (i :: rest)
      simp [countPodAddedEvents, List.countP_cons]
      omega
    · show ((depStep s i).2 ++ depRunFrom (depStep s i).1 rest).countP _ = _
      rw [List.countP_append]
      show countAddedPodEmits p (depStep s i).2
        + countAddedPodEmits p (depRunFrom (depStep s i).1 rest) = _
      rw [iha, ha]
      show countPodAddedEvents p [i] + countPodAddedEvents p rest = countPodAddedEvents p (i :: rest)
      simp [countPodAddedEvents, List.countP_cons]
      omega

/-- C2 (amended): the deployment tracker performs no dedup on pod Added
events — every inbound pod Added event for name `p`, first or re-delivered,
emits exactly one `AddedPod` and starts exactly one pod tracker for `p`, so
`TrackedPods` can hold a name more than once. -/
theorem deployment_pod_tracker_no_dedup :
    ∀ (l : List DepIn) (p : String),
      countPodTrackerStarts p (depRun l) = countPodAddedEvents p l
      ∧ countAddedPodEmits p (depRun l) = countPodAddedEvents p l :=
  fun l p => depRunFrom_pod_counts l depInit p

/-! ### Claim C5 -/

/-- C5 (counterexample): on a failure reason the daemonset tracker emits only
`Failed(reason)` — no `StatusReport`, and no reason is recorded (its state
has no reason field at all); the deployment tracker skips the `StatusReport`
when no controller object is recorded (here after a Deleted event). -/
theorem resourceFailed_no_statusReport :
    dsStep ⟨"Started", some ⟨false⟩, [], []⟩ (DsIn.resourceFailed "oops")
      = (⟨"Failed", some ⟨false⟩, [], []⟩, [DsOut.failed "oops"])
    ∧ dsRun [DsIn.resourceAdded ⟨false⟩, DsIn.resourceFailed "oops"]
      = [DsOut.statusReport, DsOut.added false, DsOut.podsInformerStart,
         DsOut.eventsInformerStart, DsOut.failed "oops"]
    ∧ depRun [DepIn.resourceAdded ⟨false, "rs1"⟩, DepIn.resourceDeleted,
        DepIn.resourceFailed "oops"]
      = [DepOut.statusReport false "", DepOut.added false, DepOut.rsInformerStart,
         DepOut.podsInformerStart, DepOut.eventsInformerStart,
         DepOut.statusReport false "", DepOut.failed "resource deleted",
         DepOut.failed "oops"] := by
  refine ⟨rfl, rfl, rfl⟩

/-- C5 (amended): on a failure reason the deployment tracker sets its state
to `Failed`, records the reason, then emits a `StatusReport` (carrying the
failure flag and reason) followed by `Failed(reason)` when a controller
object is recorded, and only `Failed(reason)` otherwise; the daemonset
tracker sets its state to `Failed` and emits only `Failed(reason)`, with no
`StatusReport` and no recorded reason. -/
theorem resourceFailed_behaviour :
    (∀ (s : DepState) (reason : String),
      (depStep s (DepIn.resourceFailed reason)).1.state = "Failed"
      ∧ (depStep s (DepIn.resourceFailed reason)).1.failedReason = reason
      ∧ (depStep s (DepIn.resourceFailed reason)).2 =
          (if s.lastObject.isSome then
            [DepOut.statusReport true reason, DepOut.failed reason]
          else [DepOut.failed reason]))
    ∧ (∀ (s : DsState) (reason : String),
      (dsStep s (DsIn.resourceFailed reason)).1.state = "Failed"
      ∧ (dsStep s (DsIn.resourceFailed reason)).2 = [DsOut.failed reason]
      ∧ (dsStep s (DsIn.resourceFailed reason)).2.countP
          (fun o => o == DsOut.statusReport) = 0) := by
  constructor
  · intro s reason
    refine ⟨rfl, rfl, ?_⟩
    by_cases h : s.lastObject.isSome <;> simp [depStep, h]
  · intro s reason
    exact ⟨rfl, rfl, rfl⟩

/-! ### Claim C3 -/

/-- C3 (counterexample): the daemonset tracker, after a not-ready Added
observation, emits `Ready` on both of two consecutive Modified observations
whose computed readiness is true — a second `Ready` without any false-to-true
transition, because `handleDaemonSetStatus` consults no previous
observation. -/
theorem daemonset_ready_without_edge :
    dsRun [DsIn.resourceAdded ⟨false⟩, DsIn.resourceModified ⟨true⟩,
        DsIn.resourceModified ⟨true⟩]
      = [DsOut.statusReport, DsOut.added false, DsOut.podsInformerStart,
         DsOut.eventsInformerStart, DsOut.statusReport, DsOut.ready,
         DsOut.statusReport, DsOut.ready] := by
  rfl

/-- C3 (amended): the deployment tracker emits `Ready` on a Modified event
exactly when the newly computed readiness is true and either no controller
object is recorded or the previously recorded readiness was false (so with
the object present, `Ready` fires at most once per rising edge and a
Modified whose readiness was already true emits nothing); the daemonset
tracker performs no edge detection and emits `Ready` on every Modified event
whose computed rollout readiness is true.  No other event kind emits
`Ready`. -/
theorem ready_emission_characterisation :
    (∀ (s : DepState) (o : DeployObj),
      DepOut.ready ∈ (depStep s (DepIn.resourceModified o)).2
        ↔ (o.isReady = true ∧ (s.lastObject.isSome = true → s.currentReady = false)))
    ∧ (∀ (s : DepState) (o : DeployObj),
      (depStep s (DepIn.resourceModified o)).1.currentReady = o.isReady)
    ∧ (∀ (s : DepState) (i : DepIn), DepOut.ready ∈ (depStep s i).2 →
        ∃ o, i = DepIn.resourceModified o)
    ∧ (∀ (s : DsState) (o : DsObj),
      DsOut.ready ∈ (dsStep s (DsIn.resourceModified o)).2 ↔ o.rolloutReady = true)
    ∧ (∀ (s : DsState) (i : DsIn), DsOut.ready ∈ (dsStep s i).2 →
        ∃ o, i = DsIn.resourceModified o) := by
  refine ⟨?_, ?_, ?_, ?_, ?_⟩
  · intro s o
    rcases hl : s.lastObject with _ | o' <;>
      cases hc : s.currentReady <;>
      cases hr : o.isReady <;>
      simp [depStep, handleDeploymentState, hl, hc, hr]
  · intro s o
    rfl
  · intro s i hm
    cases i with
    | resourceModified o => exact ⟨o, rfl⟩
    | _ =>
      exfalso
      revert hm
      simp only [depStep, handleDeploymentState]
      first
        | (split_ifs <;> simp)
        | simp
  · intro s o
    cases hr : o.rolloutReady <;> simp [dsStep, handleDaemonSetStatus, hr]
  · intro s i hm
    cases i with
    | resourceModified o => exact ⟨o, rfl⟩
    | _ =>
      exfalso
      revert hm
      simp only [dsStep, handleDaemonSetStatus]
      first
        | (split_ifs <;> simp)
        | simp

theorem ready_emission_characterisation_witness :
    (∃ o, DepIn.resourceModified (⟨true, "rs1"⟩ : DeployObj) = DepIn.resourceModified o)
    ∧ (∃ o, DsIn.resourceModified (⟨true⟩ : DsObj) = DsIn.resourceModified o) :=
  ⟨ready_emission_characterisation.2.2.1 depInit (DepIn.resourceModified ⟨true, "rs1"⟩)
      (by decide),
   ready_emission_characterisation.2.2.2.2 dsInit (DsIn.resourceModified ⟨true⟩)
      (by decide)⟩

/-! ### Claim C10 -/

/-- C10: every controller Added event handled by the deployment tracker
starts the replica-set, pods and events informers — exactly one of each per
event — while a re-delivered Added event (state no longer the empty string)
leaves the state unchanged and emits no `Added`. -/
theorem deployment_informers_on_every_added :
    (∀ (s : DepState) (o : DeployObj),
      (depStep s (DepIn.resourceAdded o)).2.countP (fun x => x == DepOut.rsInformerStart) = 1
      ∧ (depStep s (DepIn.resourceAdded o)).2.countP
          (fun x => x == DepOut.podsInformerStart) = 1
      ∧ (depStep s (DepIn.resourceAdded o)).2.countP
          (fun x => x == DepOut.eventsInformerStart) = 1)
    ∧ (∀ (s : DepState) (o : DeployObj), s.state ≠ "" →
      (depStep s (DepIn.resourceAdded o)).1.state = s.state
      ∧ (depStep s (DepIn.resourceAdded o)).2.countP
          (fun x => match x with | DepOut.added _ => true | _ => false) = 0) := by
  constructor
  · intro s o
    refine ⟨?_, ?_, ?_⟩ <;>
      · simp only [depStep, handleDeploymentState]
        split_ifs <;> simp_all [List.countP_append, List.countP_cons]
  · intro s o h
    constructor
    · simp [depStep, handleDeploymentState, h]
    · simp only [depStep, handleDeploymentState]
      split_ifs <;> simp_all [List.countP_append, List.countP_cons]

/-- A deployment tracker state that has already started. -/
def startedDepState : DepState := ⟨"Started", false, some ⟨false, "rs1"⟩, "", [], [], []⟩

theorem deployment_informers_on_every_added_witness :
    (depStep startedDepState (DepIn.resourceAdded ⟨false, "rs1"⟩)).1.state
      = startedDepState.state
    ∧ (depStep startedDepState (DepIn.resourceAdded ⟨false, "rs1"⟩)).2.countP
        (fun x => match x with | DepOut.added _ => true | _ => false) = 0 :=
  deployment_informers_on_every_added.2 startedDepState ⟨false, "rs1"⟩ (by decide)

/-! ### Claim C8 -/

def isCtrlAddedDep : DepIn → Bool
  | DepIn.resourceAdded _ => true
  | _ => false

/-- Auxiliary scan for `depWf`: `seen` records whether a controller Added
message occurred earlier. -/
def depWfAux : Bool → List DepIn → Bool
  | _, [] => true
  | seen, i :: rest =>
    if isCtrlAddedDep i then depWfAux true rest else seen && depWfAux seen rest

/-- Modelled from the program's channel topology (spec §4.4 startup): at
`Track` entry only the controller informer runs; the replica-set, pods and
events informers and the pod trackers — the senders of every other inbound
message — are started while handling a controller Added event, and the
list-then-watch controller informer delivers the object's Added before any
Modified or Deleted.  A well-formed inbound trace therefore has every
non-Added message preceded by some controller Added message. -/
def depWf (l : List DepIn) : Bool := depWfAux false l

def isAddedOutDep : DepOut → Bool
  | DepOut.added _ => true
  | _ => false

def isReadyOrFailedDep : DepOut → Bool
  | DepOut.ready => true
  | DepOut.failed _ => true
  | _ => false

/-- Holds when no `Ready` or `Failed` emission occurs before the first
`Added` emission (vacuously when none occurs at all). -/
def noReadyFailedBeforeAddedDep : List DepOut → Bool
  | [] => true
  | o :: rest =>
    if isAddedOutDep o then true
    else !isReadyOrFailedDep o && noReadyFailedBeforeAddedDep rest

def isCtrlAddedDs : DsIn → Bool
  | DsIn.resourceAdded _ => true
  | _ => false

def dsWfAux : Bool → List DsIn → Bool
  | _, [] => true
  | seen, i :: rest =>
    if isCtrlAddedDs i then dsWfAux true rest else seen && dsWfAux seen rest

/-- Modelled from the program's channel topology, as `depWf` is for the
deployment tracker. -/
def dsWf (l : List DsIn) : Bool := dsWfAux false l

def isAddedOutDs : DsOut → Bool
  | DsOut.added _ => true
  | _ => false

def isReadyOrFailedDs : DsOut → Bool
  | DsOut.ready => true
  | DsOut.failed _ => true
  | _ => false

def noReadyFailedBeforeAddedDs : List DsOut → Bool
  | [] => true
  | o :: rest =>
    if isAddedOutDs o then true
    else !isReadyOrFailedDs o && noReadyFailedBeforeAddedDs rest

theorem depStep_init_added (o : DeployObj) :
    depStep depInit (DepIn.resourceAdded o) =
      (⟨"Started", o.isReady, some o, "", [], [], []⟩,
       [DepOut.statusReport false "", DepOut.added o.isReady, DepOut.rsInformerStart,
        DepOut.podsInformerStart, DepOut.eventsInformerStart]) := rfl

theorem dsStep_init_added (o : DsObj) :
    dsStep dsInit (DsIn.resourceAdded o) =
      (⟨"Started", some o, [], []⟩,
       [DsOut.statusReport, DsOut.added o.rolloutReady, DsOut.podsInformerStart,
        DsOut.eventsInformerStart]) := rfl

theorem depStep_no_added_of_started (s : DepState) (i : DepIn) (h : ¬s.state = "") :
    (depStep s i).2.countP isAddedOutDep = 0 ∧ ¬(depStep s i).1.state = "" := by
  have hD : ¬("Deleted" : String) = "" := by decide
  have hF : ¬("Failed" : String) = "" := by decide
  cases i <;>
    simp only [depStep, handleDeploymentState] <;>
    first
      | (split_ifs <;> simp_all [List.countP_append, List.countP_cons, isAddedOutDep])
      | simp_all [List.countP_append, List.countP_cons, isAddedOutDep]

theorem dsStep_no_added_of_started (s : DsState) (i : DsIn) (h : ¬s.state = "") :
    (dsStep s i).2.countP isAddedOutDs = 0 ∧ ¬(dsStep s i).1.state = "" := by
  have hD : ¬("Deleted" : String) = "" := by decide
  have hF : ¬("Failed" : String) = "" := by decide
  cases i <;>
    simp only [dsStep, handleDaemonSetStatus] <;>
    first
      | (split_ifs <;> simp_all [List.countP_append, List.countP_cons, isAddedOutDs])
      | simp_all [List.countP_append, List.countP_cons, isAddedOutDs]

theorem depRunFrom_no_added_of_started :
    ∀ (l : List DepIn) (s : DepState), ¬s.state = "" →
      (depRunFrom s l).countP isAddedOutDep = 0 := by
  intro l
  induction l with
  | nil => intro s _; rfl
  | cons i rest ih =>
    intro s h
    obtain ⟨h1, h2⟩ := depStep_no_added_of_started s i h
    show ((depStep s i).2 ++ depRunFrom (depStep s i).1 rest).countP isAddedOutDep = 0
    rw [List.countP_append, h1, ih (depStep s i).1 h2]

theorem dsRunFrom_no_added_of_started :
    ∀ (l : List DsIn) (s : DsState), ¬s.state = "" →
      (dsRunFrom s l).countP isAddedOutDs = 0 := by
  intro l
  induction l with
  | nil => intro s _; rfl
  | cons i rest ih =>
    intro s h
    obtain ⟨h1, h2⟩ := dsStep_no_added_of_started s i h
    show ((dsStep s i).2 ++ dsRunFrom (dsStep s i).1 rest).countP isAddedOutDs = 0
    rw [List.countP_append, h1, ih (dsStep s i).1 h2]

/-- C8: for both controller trackers, on inbound traces respecting the
program's channel topology (`depWf`/`dsWf`), the `Added` feed event is
emitted at most once per `Track` invocation and no `Ready` or `Failed`
precedes it; moreover any iteration emitting `Added` is a controller Added
event finding the state equal to the empty string and simultaneously moving
it to `"Started"`. -/
theorem added_once_and_first :
    (∀ l : List DepIn, depWf l = true →
      (depRun l).countP isAddedOutDep ≤ 1
      ∧ noReadyFailedBeforeAddedDep (depRun l) = true)
    ∧ (∀ (s : DepState) (i : DepIn) (b : Bool), DepOut.added b ∈ (depStep s i).2 →
        (∃ o, i = DepIn.resourceAdded o) ∧ s.state = ""
        ∧ (depStep s i).1.state = "Started")
    ∧ (∀ l : List DsIn, dsWf l = true →
      (dsRun l).countP isAddedOutDs ≤ 1
      ∧ noReadyFailedBeforeAddedDs (dsRun l) = true)
    ∧ (∀ (s : DsState) (i : DsIn) (b : Bool), DsOut.added b ∈ (dsStep s i).2 →
        (∃ o, i = DsIn.resourceAdded o) ∧ s.state = ""
        ∧ (dsStep s i).1.state = "Started") := by
  refine ⟨?_, ?_, ?_, ?_⟩
  · intro l hwf
    rcases l with _ | ⟨i, rest⟩
    · exact ⟨Nat.zero_le 1, rfl⟩
    cases i with
    | resourceAdded o =>
      have h0 : (depRunFrom (⟨"Started", o.isReady, some o, "", [], [], []⟩ : DepState)
          rest).countP isAddedOutDep = 0 :=
        depRunFrom_no_added_of_started rest
          (⟨"Started", o.isReady, some o, "", [], [], []⟩ : DepState)
          (show ¬("Started" : String) = "" by decide)
      have hrun : depRun (DepIn.resourceAdded o :: rest)
          = [DepOut.statusReport false "", DepOut.added o.isReady, DepOut.rsInformerStart,
             DepOut.podsInformerStart, DepOut.eventsInformerStart]
            ++ depRunFrom ⟨"Started", o.isReady, some o, "", [], [], []⟩ rest := by
        simp only [depRun, depRunFrom, depStep_init_added o]
      rw [hrun]
      constructor
      · rw [List.countP_append, h0]
        simp [isAddedOutDep, List.countP_cons]
      · rfl
    | _ =>
      exfalso
      simp [depWf, depWfAux, isCtrlAddedDep] at hwf
  · intro s i b hm
    cases i with
    | resourceAdded o =>
      by_cases hst : s.state = ""
      · refine ⟨⟨o, rfl⟩, hst, ?_⟩
        simp [depStep, handleDeploymentState, hst]
      · exfalso
        revert hm
        simp only [depStep, handleDeploymentState]
        split_ifs <;> simp_all
    | _ =>
      exfalso
      revert hm
      simp only [depStep, handleDeploymentState]
      first
        | (split_ifs <;> simp)
        | simp
  · intro l hwf
    rcases l with _ | ⟨i, rest⟩
    · exact ⟨Nat.zero_le 1, rfl⟩
    cases i with
    | resourceAdded o =>
      have h0 : (dsRunFrom (⟨"Started", some o, [], []⟩ : DsState) rest).countP
          isAddedOutDs = 0 :=
        dsRunFrom_no_added_of_started rest (⟨"Started", some o, [], []⟩ : DsState)
          (show ¬("Started" : String) = "" by decide)
      have hrun : dsRun (DsIn.resourceAdded o :: rest)
          = [DsOut.statusReport, DsOut.added o.rolloutReady, DsOut.podsInformerStart,
             DsOut.eventsInformerStart]
            ++ dsRunFrom ⟨"Started", some o, [], []⟩ rest := by
        simp only [dsRun, dsRunFrom, dsStep_init_added o]
      rw [hrun]
      constructor
      · rw [List.countP_append, h0]
        simp [isAddedOutDs, List.countP_cons]
      · rfl
    | _ =>
      exfalso
      simp [dsWf, dsWfAux, isCtrlAddedDs] at hwf
  · intro s i b hm
    cases i with
    | resourceAdded o =>
      by_cases hst : s.state = ""
      · refine ⟨⟨o, rfl⟩, hst, ?_⟩
        simp [dsStep, handleDaemonSetStatus, hst]
      · exfalso
        revert hm
        simp only [dsStep, handleDaemonSetStatus]
        split_ifs <;> simp_all
    | _ =>
      exfalso
      revert hm
      simp only [dsStep, handleDaemonSetStatus]
      first
        | (split_ifs <;> simp)
        | simp

theorem added_once_and_first_witness :
    ((depRun [DepIn.resourceAdded ⟨true, "rs1"⟩, DepIn.resourceModified ⟨true, "rs1"⟩]).countP
        isAddedOutDep ≤ 1
      ∧ noReadyFailedBeforeAddedDep (depRun [DepIn.resourceAdded ⟨true, "rs1"⟩,
          DepIn.resourceModified ⟨true, "rs1"⟩]) = true)
    ∧ ((∃ o, DepIn.resourceAdded (⟨true, "rs1"⟩ : DeployObj) = DepIn.resourceAdded o)
      ∧ depInit.state = ""
      ∧ (depStep depInit (DepIn.resourceAdded ⟨true, "rs1"⟩)).1.state = "Started")
    ∧ ((dsRun [DsIn.resourceAdded ⟨false⟩, DsIn.resourceModified ⟨true⟩]).countP
        isAddedOutDs ≤ 1
      ∧ noReadyFailedBeforeAddedDs (dsRun [DsIn.resourceAdded ⟨false⟩,
          DsIn.resourceModified ⟨true⟩]) = true)
    ∧ ((∃ o, DsIn.resourceAdded (⟨false⟩ : DsObj) = DsIn.resourceAdded o)
      ∧ dsInit.state = ""
      ∧ (dsStep dsInit (DsIn.resourceAdded ⟨false⟩)).1.state = "Started") :=
  ⟨added_once_and_first.1 [DepIn.resourceAdded ⟨true, "rs1"⟩,
      DepIn.resourceModified ⟨true, "rs1"⟩] (by decide),
   added_once_and_first.2.1 depInit (DepIn.resourceAdded ⟨true, "rs1"⟩) true (by decide),
   added_once_and_first.2.2.1 [DsIn.resourceAdded ⟨false⟩, DsIn.resourceModified ⟨true⟩]
      (by decide),
   added_once_and_first.2.2.2 dsInit (DsIn.resourceAdded ⟨false⟩) false (by decide)⟩

end Kubedog
